import Mathlib

/-!
Verification of the scene-graph traversal and transform-resolution core of
`vispy/scene/events.py`, plus the argument validation of
`vispy/visuals/mesh_normals.py`.

The embedding mirrors the Python source:

* A scene-graph node is modelled by the inductive type `Node`.  The field
  `nid` stands for the CPython object identity (`id(node)`); the source
  compares nodes with `is`, stores `id(node)` in a set, and uses the default
  object equality (identity) for `==`, `in` and `list.index`, so every
  comparison in the embedding is a comparison of `nid` values.  The field
  `transform` is the label of the elementary transform owned by the node
  (the transform type is an external collaborator; only composition order
  and inversion are observable, so a transform chain is modelled as the
  list of (label, inverted) pairs it is built from).
* `Ctx` is the mutable state of a `SceneEvent`: the node stack `_stack`,
  the identity set `_stack_ids`, `_viewbox_stack` and `_doc_stack`.
  Operations return the state after the call together with the raised
  exception, if any, so that error paths can be inspected.
* Python exceptions are modelled by `PyErr`.  The two `RuntimeError`s of
  the source are distinguished by message, as in the spec taxonomy
  (`cycleError`, `disjointPathError`).
* The unbounded `while` loops of `_node_path` are modelled with explicit
  fuel (`walkAux`); a result of `none` means the loop did not finish
  within the given fuel.  The inner copy loop of `_node_path` and the
  join-point loop of `node_transform` have an intrinsic iteration bound
  (the loop index), which supplies the fuel internally.
-/

/-- A Python exception, distinguished the way the spec taxonomy does. -/
inductive PyErr where
  | cycleError
  | disjointPathError
  | indexError
  | valueError
  | keyError
  | assertionError
  | nameError
  | typeError
  deriving DecidableEq, Repr

/-- External scene-graph node: identity, owned elementary transform label,
ordered parents, optional document node.  `nid` models `id(node)`. -/
inductive Node where
  | mk (nid : Nat) (transform : Nat) (parents : List Node) (document : Option Node)

/-- The CPython identity of the node (`id(node)`). -/
def Node.nid : Node → Nat
  | .mk i _ _ _ => i

/-- Label of the elementary transform owned by the node. -/
def Node.transform : Node → Nat
  | .mk _ t _ _ => t

/-- Ordered collection of parents (`node.parents`). -/
def Node.parents : Node → List Node
  | .mk _ _ ps _ => ps

/-- Optional document node (`node.document`). -/
def Node.document : Node → Option Node
  | .mk _ _ _ d => d

/-- The mutable state of a `SceneEvent`: node stack, identity-membership
set, viewbox stack, document stack. -/
structure Ctx where
  stack : List Node
  stackIds : Finset Nat
  viewboxStack : List Node
  docStack : List Node

/-- `SceneEvent.path`: the stack of nodes from the root to the current
recipient. -/
def pathOf (ctx : Ctx) : List Node :=
  ctx.stack

/-- `SceneEvent.push_node`.  The source appends the node to `_stack`
first, then checks `_stack_ids` and raises `RuntimeError` (the cycle
error) if the identity is already present; only on the non-error path is
the identity added and the document (if any) pushed.  The returned pair is
the state after the call and the exception raised, if any. -/
def push_node (ctx : Ctx) (node : Node) : Ctx × Option PyErr :=
  let ctx1 := { ctx with stack := ctx.stack ++ [node] }
  if node.nid ∈ ctx.stackIds then
    (ctx1, some PyErr.cycleError)
  else
    let ctx2 := { ctx1 with stackIds := insert node.nid ctx1.stackIds }
    match node.document with
    | some d => ({ ctx2 with docStack := ctx2.docStack ++ [d] }, none)
    | none => (ctx2, none)

/-- `SceneEvent.pop_node`.  Pops `_stack` (IndexError when empty, state
unchanged), removes the identity from `_stack_ids` (KeyError when absent,
after the stack pop already happened), then, when the popped node has a
document, pops `_doc_stack` (IndexError when empty) and asserts equality
with the node document (AssertionError on mismatch, after the document pop
already happened).  Returns the state after the call and the popped node
or the exception. -/
def pop_node (ctx : Ctx) : Ctx × Except PyErr Node :=
  match ctx.stack.getLast? with
  | none => (ctx, Except.error PyErr.indexError)
  | some ent =>
    let ctx1 := { ctx with stack := ctx.stack.dropLast }
    if ent.nid ∈ ctx1.stackIds then
      let ctx2 := { ctx1 with stackIds := ctx1.stackIds.erase ent.nid }
      match ent.document with
      | none => (ctx2, Except.ok ent)
      | some d =>
        match ctx2.docStack.getLast? with
        | none => (ctx2, Except.error PyErr.indexError)
        | some dtop =>
          let ctx3 := { ctx2 with docStack := ctx2.docStack.dropLast }
          if dtop.nid = d.nid then (ctx3, Except.ok ent)
          else (ctx3, Except.error PyErr.assertionError)
    else (ctx1, Except.error PyErr.keyError)

/-- `SceneEvent.push_viewbox`: plain stack push, never raises. -/
def push_viewbox (ctx : Ctx) (vb : Node) : Ctx × Option PyErr :=
  ({ ctx with viewboxStack := ctx.viewboxStack ++ [vb] }, none)

/-- `SceneEvent.pop_viewbox`: plain stack pop, IndexError when empty. -/
def pop_viewbox (ctx : Ctx) : Ctx × Except PyErr Node :=
  match ctx.viewboxStack.getLast? with
  | none => (ctx, Except.error PyErr.indexError)
  | some vb => ({ ctx with viewboxStack := ctx.viewboxStack.dropLast }, Except.ok vb)

/-- `SceneMouseEvent.copy`: builds a fresh event (empty stacks), then
copies only `_stack` and `_viewbox_stack`; `_stack_ids` and `_doc_stack`
stay empty. -/
def copy (ctx : Ctx) : Ctx :=
  { stack := ctx.stack, stackIds := ∅, viewboxStack := ctx.viewboxStack, docStack := [] }

/-- `len(node_stack) == len(node_stack_membership)`, the invariant named
by the spec. -/
def countInvariant (ctx : Ctx) : Prop :=
  ctx.stack.length = ctx.stackIds.card

/-- The states produced by balanced use of the public operations: the
membership set is exactly the set of identities of the stacked nodes and
no identity is stacked twice. -/
def mirror (ctx : Ctx) : Prop :=
  (ctx.stack.map Node.nid).Nodup ∧ ctx.stackIds = (ctx.stack.map Node.nid).toFinset

/-- Python indexing `l[i]` with negative-index wraparound: `l[-k]` is
`l[len(l) - k]` when `k ≤ len(l)`; out of range gives `none`
(IndexError). -/
def pyGet (l : List Node) (i : Int) : Option Node :=
  if 0 ≤ i then l.get? i.toNat
  else if (-i).toNat ≤ l.length then l.get? (l.length - (-i).toNat)
  else none

/-- Python `list.index(node)` (first position whose element `==` the
node, i.e. identity); `none` models the ValueError raised when absent. -/
def pyIndexList : List Node → Node → Option Nat
  | [], _ => none
  | x :: xs, n => if x.nid = n.nid then some 0 else (pyIndexList xs n).map (fun k => k + 1)

/-- `path[-1] is endN` for a nonempty list (the source never evaluates it
on an empty path). -/
def lastIs (path : List Node) (endN : Node) : Bool :=
  match path.getLast? with
  | some x => x.nid == endN.nid
  | none => false

/-- First phase of `SceneEvent._node_path`: the parent-pointer walk
`while id(node) not in self._stack_ids`.  Result `some (path, some n)`
means the loop condition failed at node `n` (execution continues with the
stack fallback); `some (path, none)` means the body returned `path`
directly (`node is end` or `len(node.parents) != 1`); `none` means the
fuel ran out before the loop finished. -/
def walkAux (ctx : Ctx) (endN : Node) : Nat → Node → List Node → Option (List Node × Option Node)
  | 0, _, _ => none
  | fuel + 1, node, path =>
    if node.nid ∈ ctx.stackIds then some (path, some node)
    else if node.nid = endN.nid ∨ node.parents.length ≠ 1 then some (path, none)
    else
      match node.parents.head? with
      | some p => walkAux ctx endN fuel p (path ++ [p])
      | none => some (path, none)

/-- Second phase of `SceneEvent._node_path`: the loop
`while ind > -1 and path[-1] is not end: ind -= 1; path.append(self._stack[ind])`.
A failed `self._stack[ind]` lookup is the IndexError the surrounding
`try` catches, after which `path` is returned as accumulated so far.
The loop index strictly decreases, so `ind + 2` steps of fuel always
suffice; the fuel is supplied by `copyLoop`. -/
def copyLoopAux (stack : List Node) (endN : Node) : Nat → Int → List Node → List Node
  | 0, _, path => path
  | fuel + 1, ind, path =>
    match path.getLast? with
    | none => path
    | some lastx =>
      if ind > -1 ∧ lastx.nid ≠ endN.nid then
        match pyGet stack (ind - 1) with
        | some x => copyLoopAux stack endN fuel (ind - 1) (path ++ [x])
        | none => path
      else path

/-- Second phase of `SceneEvent._node_path` starting from the index found
by `list.index`. -/
def copyLoop (stack : List Node) (endN : Node) (ind : Nat) (path : List Node) : List Node :=
  copyLoopAux stack endN (ind + 2) (ind : Int) path

/-- `SceneEvent._node_path(start, end)`.  `none` = the parent walk did
not finish within `fuel`; `some (Except.error e)` = the call raised `e`;
`some (Except.ok path)` = the call returned `path`.  Note that when the
loop node is absent from `_stack`, `list.index` raises ValueError, which
the `except IndexError` clause does not catch. -/
def node_path (fuel : Nat) (ctx : Ctx) (start endN : Node) : Option (Except PyErr (List Node)) :=
  match walkAux ctx endN fuel start [start] with
  | none => none
  | some (path, none) => some (Except.ok path)
  | some (path, some node) =>
    if lastIs path endN then some (Except.ok path)
    else
      match pyIndexList ctx.stack node with
      | some ind => some (Except.ok (copyLoop ctx.stack endN ind path))
      | none => some (Except.error PyErr.valueError)

/-- The join-point loop of `SceneEvent.node_transform`:
`for i in range(1, len(rev_path)): if rev_path[i] in fwd_path: rev_path = rev_path[:i]; connected = True`.
The iteration count is fixed from the length of the original `rev_path`,
but the body keeps indexing the possibly already truncated `rev_path`, so
`rev_path[i]` can raise IndexError. -/
def joinLoopAux (fwd : List Node) : Nat → Nat → List Node → Bool → Except PyErr (List Node × Bool)
  | 0, _, cur, conn => Except.ok (cur, conn)
  | rem + 1, i, cur, conn =>
    match cur.get? i with
    | none => Except.error PyErr.indexError
    | some x =>
      if fwd.any (fun y => y.nid == x.nid) then
        joinLoopAux fwd rem (i + 1) (cur.take i) true
      else
        joinLoopAux fwd rem (i + 1) cur conn

/-- The join-point search over `range(1, len(rev_path))`. -/
def joinLoop (fwd rev : List Node) : Except PyErr (List Node × Bool) :=
  joinLoopAux fwd (rev.length - 1) 1 rev false

/-- An element of a transform chain: the label of the elementary
transform of a node, together with the inversion flag
(`e.transform.inverse` sets it). -/
abbrev TransformElem := Nat × Bool

/-- Modelled from the spec: `TransformCache.get` (class `TransformCache`
of `vispy/visuals/transforms`, not part of the sources at hand) returns
the left-to-right composition of the given ordered sequence of elementary
transforms, never mutating or reordering its input; caching is an
optimization with no observable effect on the result.  Composition of
formal transform symbols is the free-monoid word, i.e. the sequence
itself, so the composed result is modelled by that sequence. -/
def TransformCache.get (chain : List TransformElem) : List TransformElem :=
  chain

/-- `[e.transform for e in fwd_path] + [e.transform.inverse for e in rev_path]`. -/
def mkTransforms (fwd rev : List Node) : List TransformElem :=
  fwd.map (fun e => (e.transform, false)) ++ rev.map (fun e => (e.transform, true))

/-- `SceneEvent.node_transform(map_to, map_from)` with both endpoints
given explicitly (the defaults, `render_cs` and `_stack[-1]`, are
supplied by the callers that use them).  `none` = a `_node_path` walk did
not finish within `fuel`; otherwise the raised exception or the composed
chain returned through the transform cache. -/
def node_transform (fuel : Nat) (ctx : Ctx) (mapTo mapFrom : Node) :
    Option (Except PyErr (List TransformElem)) :=
  match node_path fuel ctx mapFrom mapTo with
  | none => none
  | some (Except.error e) => some (Except.error e)
  | some (Except.ok fwd) =>
    let fwdR := fwd.reverse
    match fwdR.head? with
    | none => some (Except.error PyErr.indexError)
    | some h0 =>
      if h0.nid = mapTo.nid then
        some (Except.ok (TransformCache.get (mkTransforms fwdR.tail [])))
      else
        match pyGet ctx.stack 0 with
        | none => some (Except.error PyErr.indexError)
        | some root =>
          match node_path fuel ctx mapTo root with
          | none => none
          | some (Except.error e) => some (Except.error e)
          | some (Except.ok rev) =>
            match joinLoop fwdR rev with
            | Except.error e => some (Except.error e)
            | Except.ok (revT, true) =>
              some (Except.ok (TransformCache.get (mkTransforms fwdR revT)))
            | Except.ok (_, false) => some (Except.error PyErr.disjointPathError)

/-- `SceneEvent.visual_to_document`.  The source body is
`return self.node_transform(map_to=self.document_cs, map_from=node)`:
after reading `document_cs` (delegated to the document stack or the
canvas collaborator), the bare name `node` is undefined in every
enclosing scope, so evaluating the property raises NameError before
`node_transform` is ever invoked, whatever the state of the event. -/
def visual_to_document (_ctx : Ctx) : Except PyErr (List TransformElem) :=
  Except.error PyErr.nameError

/-- A method of the external `MeshData` collaborator, recorded in call
order by the embedding of `MeshNormalsVisual.__init__`. -/
inductive MeshCall where
  | getFaceNormals
  | getVertexNormals
  | getVerticesIndexedFaces
  | getVertices
  deriving DecidableEq, Repr

/-- `MeshNormalsVisual.__init__` reduced to its control flow over the
`meshdata` collaborator: the numeric array work (normalization, median
edge length, extents, segment assembly) involves no further branching and
is abstracted away; what remains observable is the ordered list of
`meshdata` methods invoked and the exception raised, if any.  The
`primitive` check is the first statement of the source; `lengthIsNone`
stands for `length is None`.  When `length` stays `None` because
`length_method` matches neither branch, the source hits
`length *= length_scale` on `None`, a TypeError. -/
def meshNormalsVisualInit (primitive : String) (lengthIsNone : Bool) (lengthMethod : String) :
    List MeshCall × Option PyErr :=
  if primitive ≠ "face" ∧ primitive ≠ "vertex" then ([], some PyErr.valueError)
  else
    let c1 := if primitive = "face" then [MeshCall.getFaceNormals] else [MeshCall.getVertexNormals]
    let lenCalls :=
      if lengthIsNone ∧ lengthMethod = "median_edge" then some [MeshCall.getVerticesIndexedFaces]
      else if lengthIsNone ∧ lengthMethod = "max_extent" then some [MeshCall.getVertices]
      else if lengthIsNone then none
      else some []
    match lenCalls with
    | none => (c1, some PyErr.typeError)
    | some c2 =>
      let c3 := if primitive = "face" then [MeshCall.getVerticesIndexedFaces] else [MeshCall.getVertices]
      (c1 ++ c2 ++ c3, none)

/-!
Concrete scene graphs used by the counterexamples and witnesses.

`nR` is a root; `nB`, `nC`, `nA` are children of `nR`; `nD` has the two
parents `nB` and `nC` (diamond); `nE` is a child of `nB`; `nB2` is a
child of `nA`; `nZ` is isolated; `nWD` carries the document `nDoc`;
`nN → nP → nR` is a single-parent chain.
-/

def nR : Node := Node.mk 0 10 [] none

def nB : Node := Node.mk 1 11 [nR] none

def nC : Node := Node.mk 2 12 [nR] none

def nD : Node := Node.mk 3 13 [nB, nC] none

def nE : Node := Node.mk 4 14 [nB] none

def nA : Node := Node.mk 5 15 [nR] none

def nB2 : Node := Node.mk 6 16 [nA] none

def nZ : Node := Node.mk 7 17 [] none

def nDoc : Node := Node.mk 20 30 [] none

def nWD : Node := Node.mk 8 18 [] (some nDoc)

def nP : Node := Node.mk 9 19 [nR] none

def nN : Node := Node.mk 10 21 [nP] none

/-- State with `nR` stacked; used to exercise the duplicate push. -/
def cX : Ctx := ⟨[nR], {0}, [], []⟩

/-- Traversal state `[R, B, D]` of the diamond graph. -/
def cDiamond : Ctx := ⟨[nR, nB, nD], {0, 1, 3}, [], []⟩

/-- Traversal state `[R, A, B2]` of the chain graph. -/
def cChain : Ctx := ⟨[nR, nA, nB2], {0, 5, 6}, [], []⟩

/-- A two-node state whose membership set mirrors its stack. -/
def cMirror : Ctx := ⟨[nR, nB], {0, 1}, [], []⟩

/-- State with one stacked node, a viewbox and a document. -/
def cRich : Ctx := ⟨[nR, nB], {0, 1}, [nC], [nDoc]⟩

/-- The empty traversal state of a freshly created event. -/
def cEmpty : Ctx := ⟨[], ∅, [], []⟩

/-- Claim C1 (amended): for every traversal context and node whose
identity is already in the membership set, `push_node` raises the cycle
error, and afterwards the membership set, the document stack and the
viewbox stack equal their values before the call — but the node stack
does not: the append precedes the check, so the node stack equals its
prior value with the node appended once at the end. -/
theorem c1_push_node_cycle_state (ctx : Ctx) (n : Node) (h : n.nid ∈ ctx.stackIds) :
    push_node ctx n = ({ ctx with stack := ctx.stack ++ [n] }, some PyErr.cycleError) := by
  simp [push_node, h]

/-- Witness for C1: a concrete duplicate push showing the hypothesis is
satisfiable. -/
theorem c1_witness :
    nR.nid ∈ cX.stackIds ∧
      push_node cX nR = ({ cX with stack := cX.stack ++ [nR] }, some PyErr.cycleError) :=
  ⟨by decide, c1_push_node_cycle_state cX nR (by decide)⟩

/-- Counterexample to C1 as stated: the failing push does mutate the node
stack (its length grows), so the push is not atomic. -/
theorem c1_counterexample :
    (push_node cX nR).2 = some PyErr.cycleError ∧
      (push_node cX nR).1.stack.length ≠ cX.stack.length := by
  exact ⟨rfl, by decide⟩

/-- Claim C2: in the diamond graph R ← {B, C} ← D with sibling E under B
and traversal stack [R, B, D], `node_transform(map_to=E, map_from=D)`
reaches the join-point search, truncates `rev_path = [E, B, R]` at the
first join index 1, and then — because the loop lacks a break and its
range was fixed at the original length — indexes the truncated list at 2
and raises IndexError, contradicting the claim that only
DisjointPathError can escape the join-point search. -/
theorem c2_join_search_index_error :
    node_transform 10 cDiamond nE nD = some (Except.error PyErr.indexError) := by
  rfl

/-- Claim C6: reading `visual_to_document` always raises NameError (the
body references the undefined bare name `node`), so it never returns the
transform the claim describes. -/
theorem c6_visual_to_document_name_error (ctx : Ctx) :
    visual_to_document ctx = Except.error PyErr.nameError := rfl

/-- Claim C7: pushing a node whose identity is not yet on the stack and
popping immediately returns that node, restores `path()` exactly, and
leaves the document stack unchanged (in particular in length and top
value, whether or not the node carries a document). -/
theorem c7_push_pop_roundtrip (ctx : Ctx) (n : Node) (h : n.nid ∉ ctx.stackIds) :
    (push_node ctx n).2 = none ∧
    (pop_node (push_node ctx n).1).2 = Except.ok n ∧
    pathOf (pop_node (push_node ctx n).1).1 = pathOf ctx ∧
    (pop_node (push_node ctx n).1).1.docStack = ctx.docStack := by
  cases hd : n.document with
  | none =>
    simp [push_node, h, hd, pop_node, pathOf, List.getLast?_concat, List.dropLast_concat,
      Finset.erase_insert h]
  | some d =>
    simp [push_node, h, hd, pop_node, pathOf, List.getLast?_concat, List.dropLast_concat,
      Finset.erase_insert h]

/-- Witness for C7: a node carrying a document, pushed on a state that
already holds another document. -/
theorem c7_witness :
    nWD.nid ∉ cRich.stackIds ∧
      ((push_node cRich nWD).2 = none ∧
        (pop_node (push_node cRich nWD).1).2 = Except.ok nWD ∧
        pathOf (pop_node (push_node cRich nWD).1).1 = pathOf cRich ∧
        (pop_node (push_node cRich nWD).1).1.docStack = cRich.docStack) :=
  ⟨by decide, c7_push_pop_roundtrip cRich nWD (by decide)⟩

/-- Claim C8: `node_transform(A, A)` yields the empty transform chain
(the identity composition) and raises nothing, for every traversal
context and every node, whether or not it is on the stack.  One unit of
fuel suffices because the parent walk stops at its first test. -/
theorem c8_self_transform_identity (ctx : Ctx) (a : Node) (fuel : Nat) (h : 1 ≤ fuel) :
    node_transform fuel ctx a a = some (Except.ok []) := by
  obtain ⟨f, rfl⟩ : ∃ f, fuel = f + 1 := ⟨fuel - 1, by omega⟩
  by_cases hm : a.nid ∈ ctx.stackIds
  · simp [node_transform, node_path, walkAux, hm, lastIs, TransformCache.get, mkTransforms]
  · simp [node_transform, node_path, walkAux, hm, TransformCache.get, mkTransforms]

/-- Witness for C8 at the smallest fuel. -/
theorem c8_witness : 1 ≤ 1 ∧ node_transform 1 cEmpty nR nR = some (Except.ok []) :=
  ⟨by decide, c8_self_transform_identity cEmpty nR 1 (by decide)⟩

/-- Claim C9: the copy of a mouse event keeps the node stack and viewbox
stack contents but has an empty membership set and an empty document
stack; pushing a node already on the copied path therefore does not raise
the cycle error, and popping from the copy fails with KeyError when it
removes the identity from the empty membership set. -/
theorem c9_copy_behavior (ctx : Ctx) (n : Node) (hn : n ∈ ctx.stack) :
    (copy ctx).stack = ctx.stack ∧
    (copy ctx).viewboxStack = ctx.viewboxStack ∧
    (copy ctx).stackIds = ∅ ∧
    (copy ctx).docStack = [] ∧
    (push_node (copy ctx) n).2 ≠ some PyErr.cycleError ∧
    (pop_node (copy ctx)).2 = Except.error PyErr.keyError := by
  refine ⟨rfl, rfl, rfl, rfl, ?_, ?_⟩
  · cases hd : n.document <;> simp [push_node, copy, hd]
  · have hne : ctx.stack ≠ [] := List.ne_nil_of_mem hn
    obtain ⟨a, ha⟩ : ∃ a, ctx.stack.getLast? = some a := by
      cases h : ctx.stack.getLast? with
      | none => exact absurd (List.getLast?_eq_none_iff.mp h) hne
      | some a => exact ⟨a, rfl⟩
    simp [pop_node, copy, ha]

/-- Witness for C9 on a state with stacked nodes, a viewbox and a
document. -/
theorem c9_witness :
    nR ∈ cRich.stack ∧ (pop_node (copy cRich)).2 = Except.error PyErr.keyError :=
  ⟨List.mem_cons_self nR [nB],
    (c9_copy_behavior cRich nR (List.mem_cons_self nR [nB])).2.2.2.2.2⟩

/-- Claim C10: `MeshNormalsVisual.__init__` raises ValueError for every
primitive other than "face" and "vertex", and the check is the first
statement, so no `meshdata` method is invoked (the recorded call trace is
empty). -/
theorem c10_invalid_primitive (primitive : String) (lengthIsNone : Bool) (lengthMethod : String)
    (h1 : primitive ≠ "face") (h2 : primitive ≠ "vertex") :
    meshNormalsVisualInit primitive lengthIsNone lengthMethod = ([], some PyErr.valueError) := by
  simp [meshNormalsVisualInit, h1, h2]

/-- Witness for C10 at a concrete invalid primitive. -/
theorem c10_witness :
    ("edge" : String) ≠ "face" ∧ ("edge" : String) ≠ "vertex" ∧
      meshNormalsVisualInit "edge" true "median_edge" = ([], some PyErr.valueError) :=
  ⟨by decide, by decide, c10_invalid_primitive "edge" true "median_edge" (by decide) (by decide)⟩


/-- `list.index` only returns positions inside the list. -/
theorem pyIndexList_lt (l : List Node) (n : Node) :
    ∀ k, pyIndexList l n = some k → k < l.length := by
  induction l with
  | nil => intro k h; simp [pyIndexList] at h
  | cons x xs ih =>
    intro k h
    rw [pyIndexList] at h
    by_cases hx : x.nid = n.nid
    · rw [if_pos hx] at h
      have hk : k = 0 := (Option.some_inj.mp h).symm
      simp [hk]
    · rw [if_neg hx] at h
      cases hm : pyIndexList xs n with
      | none => rw [hm] at h; simp at h
      | some kk =>
        rw [hm] at h
        simp only [Option.map_some'] at h
        have h2 := ih kk hm
        have h3 : kk + 1 = k := Option.some_inj.mp h
        simp only [List.length_cons]
        omega

/-- Closed form of the result of the stack-fallback copy loop started at
index `k`: walking toward the root, entries `stack[k-1], ..., stack[0]`
are appended, stopping right after the first entry whose identity is
`endN`; when no such entry is met, one further entry — `stack[-1]`, the
last element of the stack — is appended before the loop exits. -/
def copySegment (stack : List Node) (endN : Node) : Nat → List Node
  | 0 => stack.getLast?.toList
  | k + 1 =>
    match stack.get? k with
    | none => []
    | some x => if x.nid = endN.nid then [x] else x :: copySegment stack endN k

/-- One unfolding of the copy loop when the accumulated path is
nonempty. -/
theorem copyLoopAux_step (stack : List Node) (endN : Node) (fuel : Nat) (ind : Int)
    (path : List Node) (lastx : Node) (hlx : path.getLast? = some lastx) :
    copyLoopAux stack endN (fuel + 1) ind path =
      if ind > -1 ∧ lastx.nid ≠ endN.nid then
        match pyGet stack (ind - 1) with
        | some x => copyLoopAux stack endN fuel (ind - 1) (path ++ [x])
        | none => path
      else path := by
  rw [copyLoopAux, hlx]

/-- The last element of a list through `get?`. -/
theorem get?_length_sub_one (l : List Node) : l.get? (l.length - 1) = l.getLast? := by
  rw [List.get?_eq_getElem?, List.getLast?_eq_getElem?]

/-- The copy loop of `_node_path` computes exactly `copySegment`. -/
theorem copyLoopAux_spec (stack : List Node) (endN : Node) :
    ∀ (k : Nat) (fuel : Nat) (path : List Node), k < stack.length → k + 2 ≤ fuel →
      lastIs path endN = false → path ≠ [] →
      copyLoopAux stack endN fuel (k : Int) path = path ++ copySegment stack endN k := by
  intro k
  induction k with
  | zero =>
    intro fuel path hk hfuel hlast hne
    obtain ⟨f, rfl⟩ : ∃ f, fuel = f + 1 := ⟨fuel - 1, by omega⟩
    obtain ⟨f2, rfl⟩ : ∃ f2, f = f2 + 1 := ⟨f - 1, by omega⟩
    obtain ⟨lastx, hlx⟩ : ∃ a, path.getLast? = some a := by
      cases h : path.getLast? with
      | none => exact absurd (List.getLast?_eq_none_iff.mp h) hne
      | some a => exact ⟨a, rfl⟩
    have hne2 : lastx.nid ≠ endN.nid := by
      intro hh
      rw [lastIs, hlx] at hlast
      simp [hh] at hlast
    obtain ⟨gl, hgl⟩ : ∃ a, stack.getLast? = some a := by
      cases h : stack.getLast? with
      | none =>
        rw [List.getLast?_eq_none_iff.mp h] at hk
        simp at hk
      | some a => exact ⟨a, rfl⟩
    have hpg : pyGet stack (((0 : Nat) : Int) - 1) = some gl := by
      rw [pyGet]
      have h1 : ¬ (0 : Int) ≤ ((0 : Nat) : Int) - 1 := by omega
      have h2 : (-(((0 : Nat) : Int) - 1)).toNat = 1 := by omega
      rw [if_neg h1, h2, if_pos (by omega : 1 ≤ stack.length)]
      rw [get?_length_sub_one]
      exact hgl
    rw [copyLoopAux_step stack endN (f2 + 1) _ path lastx hlx,
      if_pos (⟨by omega, hne2⟩ : ((0 : Nat) : Int) > -1 ∧ lastx.nid ≠ endN.nid)]
    simp only [hpg]
    rw [copyLoopAux_step stack endN f2 _ (path ++ [gl]) gl (List.getLast?_concat path)]
    have hneg : ¬ ((((0 : Nat) : Int) - 1) > -1 ∧ gl.nid ≠ endN.nid) := by
      intro hand
      have := hand.1
      omega
    rw [if_neg hneg]
    rw [copySegment, hgl]
    rfl
  | succ k ih =>
    intro fuel path hk hfuel hlast hne
    obtain ⟨f, rfl⟩ : ∃ f, fuel = f + 1 := ⟨fuel - 1, by omega⟩
    obtain ⟨lastx, hlx⟩ : ∃ a, path.getLast? = some a := by
      cases h : path.getLast? with
      | none => exact absurd (List.getLast?_eq_none_iff.mp h) hne
      | some a => exact ⟨a, rfl⟩
    have hne2 : lastx.nid ≠ endN.nid := by
      intro hh
      rw [lastIs, hlx] at hlast
      simp [hh] at hlast
    obtain ⟨x, hx⟩ : ∃ a, stack.get? k = some a := by
      cases h : stack.get? k with
      | none =>
        rw [List.get?_eq_none] at h
        omega
      | some a => exact ⟨a, rfl⟩
    have hcast : (((k + 1 : Nat) : Int)) - 1 = ((k : Nat) : Int) := by push_cast; ring
    have hpg : pyGet stack ((k : Nat) : Int) = some x := by
      rw [pyGet, if_pos (by omega : (0 : Int) ≤ ((k : Nat) : Int))]
      simpa using hx
    rw [copyLoopAux_step stack endN f _ path lastx hlx,
      if_pos (⟨by omega, hne2⟩ : ((k + 1 : Nat) : Int) > -1 ∧ lastx.nid ≠ endN.nid)]
    simp only [hcast, hpg]
    by_cases hxe : x.nid = endN.nid
    · obtain ⟨f2, rfl⟩ : ∃ f2, f = f2 + 1 := ⟨f - 1, by omega⟩
      rw [copyLoopAux_step stack endN f2 _ (path ++ [x]) x (List.getLast?_concat path)]
      have hneg : ¬ (((k : Nat) : Int) > -1 ∧ x.nid ≠ endN.nid) := by
        intro hand
        exact hand.2 hxe
      rw [if_neg hneg]
      simp only [copySegment, hx]
      rw [if_pos hxe]
    · have hlast2 : lastIs (path ++ [x]) endN = false := by
        rw [lastIs, List.getLast?_concat]
        simpa using hxe
      rw [ih f (path ++ [x]) (by omega) (by omega) hlast2 (by simp)]
      simp only [copySegment, hx]
      rw [if_neg hxe]
      simp

/-- Claim C3 (amended): when the parent-pointer walk of `_node_path`
stops at an element that is not `end`, the behavior is: if the element is
absent from the node stack, `list.index` raises ValueError (the
surrounding `try` catches only IndexError, so the call raises rather than
returning the partial path); if the element is found at stack position
`k`, stack entries are copied toward the root, stopping right after the
first copied entry carrying the identity of `end` — and when no such
entry exists, one further node, the last element of the stack (reached
through Python index `-1`), is appended before the loop stops, even
though it lies above the found position whenever `k + 1 < len(stack)`. -/
theorem c3_node_path_fallback (ctx : Ctx) (start endN node : Node) (path : List Node)
    (fuel : Nat)
    (hw : walkAux ctx endN fuel start [start] = some (path, some node))
    (hlast : lastIs path endN = false)
    (hpath : path ≠ []) :
    node_path fuel ctx start endN =
      some (match pyIndexList ctx.stack node with
            | none => Except.error PyErr.valueError
            | some k => Except.ok (path ++ copySegment ctx.stack endN k)) := by
  rw [node_path, hw]
  simp only [hlast]
  cases hidx : pyIndexList ctx.stack node with
  | none => simp
  | some k =>
    have hk := pyIndexList_lt ctx.stack node k hidx
    simp only [Bool.false_eq_true, if_false]
    rw [copyLoop, copyLoopAux_spec ctx.stack endN k (k + 2) path hk (by omega) hlast hpath]

/-- Witness for C3: the concrete fallback run on the chain graph with
stack `[R, A, B2]`, starting at `A` with unreachable end `Z`. -/
theorem c3_witness :
    node_path 10 cChain nA nZ = some (Except.ok ([nA] ++ copySegment cChain.stack nZ 1)) :=
  (c3_node_path_fallback cChain nA nZ nA [nA] 10 rfl rfl (by simp)).trans rfl

/-- Counterexample to C3 as stated: with stack `[R, A, B2]`, starting
node `A` found at position 1 and end `Z` never reached, `_node_path`
returns `[A, R, B2]` — its last appended element is `B2`, the entry at
stack position 2, which lies above the found position 1, contradicting
the claim that no node above the found position is ever appended. -/
theorem c3_counterexample :
    node_path 10 cChain nA nZ = some (Except.ok [nA, nR, nB2]) ∧
      pyIndexList cChain.stack nA = some 1 ∧
      cChain.stack.get? 2 = some nB2 ∧ nB2.nid ≠ nZ.nid := by
  exact ⟨rfl, rfl, rfl, by decide⟩

/-- Whatever branch `pop_node` takes on a state whose membership set
mirrors a nonempty stack, the resulting node stack is the old stack
without its last entry and the resulting membership set is the old set
without that entry's identity. -/
theorem pop_node_fields (ctx : Ctx) (ent : Node)
    (hlast : ctx.stack.getLast? = some ent) (hmem : ent.nid ∈ ctx.stackIds) :
    (pop_node ctx).1.stack = ctx.stack.dropLast ∧
      (pop_node ctx).1.stackIds = ctx.stackIds.erase ent.nid := by
  cases hdoc : ent.document with
  | none => simp [pop_node, hlast, hmem, hdoc]
  | some d =>
    cases hdl : ctx.docStack.getLast? with
    | none => simp [pop_node, hlast, hmem, hdoc, hdl]
    | some dtop =>
      by_cases hdd : dtop.nid = d.nid <;> simp [pop_node, hlast, hmem, hdoc, hdl, hdd]

/-- Claim C4 (amended): on states whose membership set mirrors the stack
(the states balanced use of the public operations produces), `pop_node`,
`push_viewbox` and `pop_viewbox` preserve the invariant
`len(node_stack) = len(node_stack_membership)` on every path, success or
error, and `push_node` preserves it on success; but on the cycle-error
path of `push_node` the invariant is broken: afterwards the node stack is
exactly one longer than the membership set. -/
theorem c4_invariant_amended (ctx : Ctx) (n vb : Node) (hm : mirror ctx) :
    ((push_node ctx n).2 = none → countInvariant (push_node ctx n).1) ∧
    ((push_node ctx n).2 ≠ none →
      (push_node ctx n).1.stack.length = (push_node ctx n).1.stackIds.card + 1) ∧
    countInvariant (pop_node ctx).1 ∧
    countInvariant (push_viewbox ctx vb).1 ∧
    countInvariant (pop_viewbox ctx).1 := by
  obtain ⟨hnd, hids⟩ := hm
  have hcount : ctx.stack.length = ctx.stackIds.card := by
    rw [hids, List.toFinset_card_of_nodup hnd, List.length_map]
  refine ⟨?_, ?_, ?_, ?_, ?_⟩
  · intro hok
    by_cases hmem : n.nid ∈ ctx.stackIds
    · simp [push_node, hmem] at hok
    · cases hd : n.document <;>
        simp [push_node, hmem, hd, countInvariant, Finset.card_insert_of_not_mem hmem, hcount]
  · intro herr
    by_cases hmem : n.nid ∈ ctx.stackIds
    · simp [push_node, hmem, hcount]
    · cases hd : n.document <;> simp [push_node, hmem, hd] at herr
  · cases hlast : ctx.stack.getLast? with
    | none =>
      have : (pop_node ctx).1 = ctx := by simp [pop_node, hlast]
      rw [this]
      exact hcount
    | some ent =>
      have hentmem : ent ∈ ctx.stack := List.mem_of_mem_getLast? hlast
      have hmem : ent.nid ∈ ctx.stackIds := by
        rw [hids]
        exact List.mem_toFinset.mpr (List.mem_map_of_mem Node.nid hentmem)
      have hlen : 1 ≤ ctx.stack.length := by
        cases hc : ctx.stack with
        | nil => rw [hc] at hentmem; simp at hentmem
        | cons a l => simp
      obtain ⟨hst, hid⟩ := pop_node_fields ctx ent hlast hmem
      have hcard : (ctx.stackIds.erase ent.nid).card = ctx.stackIds.card - 1 :=
        Finset.card_erase_of_mem hmem
      show (pop_node ctx).1.stack.length = (pop_node ctx).1.stackIds.card
      rw [hst, hid, List.length_dropLast, hcard]
      omega
  · show ctx.stack.length = ctx.stackIds.card
    exact hcount
  · cases hvb : ctx.viewboxStack.getLast? with
    | none =>
      have : (pop_viewbox ctx).1 = ctx := by simp [pop_viewbox, hvb]
      rw [this]
      exact hcount
    | some vb2 =>
      have : (pop_viewbox ctx).1.stack = ctx.stack ∧ (pop_viewbox ctx).1.stackIds = ctx.stackIds := by
        simp [pop_viewbox, hvb]
      rw [countInvariant, this.1, this.2]
      exact hcount

/-- Witness for C4 on a concrete mirrored state. -/
theorem c4_witness :
    mirror cMirror ∧ countInvariant (pop_node cMirror).1 :=
  ⟨⟨by decide, by decide⟩, (c4_invariant_amended cMirror nD nC ⟨by decide, by decide⟩).2.2.1⟩

/-- Counterexample to C4 as stated: a state satisfying the invariant on
which the cycle-error path of `push_node` leaves the invariant broken. -/
theorem c4_counterexample :
    countInvariant cX ∧ (push_node cX nR).2 = some PyErr.cycleError ∧
      ¬ countInvariant (push_node cX nR).1 := by
  refine ⟨?_, rfl, ?_⟩
  · show cX.stack.length = cX.stackIds.card
    decide
  · intro h
    have h2 : (push_node cX nR).1.stack.length = (push_node cX nR).1.stackIds.card := h
    revert h2
    decide

/-- A single-parent chain: every listed node has exactly the next listed
node as its one parent, and the last listed node has exactly `root`. -/
def isChainTo (root : Node) : List Node → Prop
  | [] => True
  | [x] => x.parents = [root]
  | x :: y :: rest => x.parents = [y] ∧ isChainTo root (y :: rest)

/-- The parent-pointer walk along a single-parent chain whose members are
off the stack and distinct from the root reaches the root, accumulating
the chain and the root onto the path; it then stops, either because the
root is on the stack (membership exit) or because the root is the walk
target (direct return). -/
theorem walkAux_chain (ctx : Ctx) (root : Node) :
    ∀ (rest : List Node) (n : Node) (acc : List Node) (fuel : Nat),
      isChainTo root (n :: rest) →
      (∀ x ∈ n :: rest, x.nid ∉ ctx.stackIds) →
      (∀ x ∈ n :: rest, x.nid ≠ root.nid) →
      rest.length + 2 ≤ fuel →
      walkAux ctx root fuel n acc =
        some (acc ++ rest ++ [root],
          if root.nid ∈ ctx.stackIds then some root else none) := by
  intro rest
  induction rest with
  | nil =>
    intro n acc fuel hchain hfresh hnr hfuel
    obtain ⟨f, rfl⟩ : ∃ f, fuel = f + 1 := ⟨fuel - 1, by omega⟩
    obtain ⟨f2, rfl⟩ : ∃ f2, f = f2 + 1 := ⟨f - 1, by omega⟩
    have h1 : n.nid ∉ ctx.stackIds := hfresh n (by simp)
    have h2 : n.nid ≠ root.nid := hnr n (by simp)
    have h3 : n.parents = [root] := hchain
    by_cases hr : root.nid ∈ ctx.stackIds
    · simp [walkAux, h1, h2, h3, hr]
    · simp [walkAux, h1, h2, h3, hr]
  | cons y rest ih =>
    intro n acc fuel hchain hfresh hnr hfuel
    obtain ⟨f, rfl⟩ : ∃ f, fuel = f + 1 := ⟨fuel - 1, by omega⟩
    obtain ⟨hpar, hrest⟩ : n.parents = [y] ∧ isChainTo root (y :: rest) := hchain
    have h1 : n.nid ∉ ctx.stackIds := hfresh n (by simp)
    have h2 : n.nid ≠ root.nid := hnr n (by simp)
    have hfuel2 : rest.length + 2 ≤ f := by
      simp only [List.length_cons] at hfuel
      omega
    have hih := ih y (acc ++ [y]) f hrest
      (fun x hx => hfresh x (by simp only [List.mem_cons] at hx ⊢; tauto))
      (fun x hx => hnr x (by simp only [List.mem_cons] at hx ⊢; tauto)) hfuel2
    rw [walkAux, if_neg h1, if_neg (by simp [h2, hpar])]
    simp only [hpar, List.head?_cons, hih, List.append_assoc, List.cons_append,
      List.nil_append, List.singleton_append]

/-- Claim C5: for a node `n` whose ancestry `n :: rest` is a
single-parent chain reaching `root`, with the chain members off the
traversal stack and distinct from the root, `node_transform` from `n` to
`root` returns the forward transforms of the chain members — and nothing
else, in particular no inverse transforms — composed in root-to-leaf
order (the transform of the node nearest the root first, the transform of
`n` last). -/
theorem c5_single_chain_transform (ctx : Ctx) (root n : Node) (rest : List Node) (fuel : Nat)
    (hchain : isChainTo root (n :: rest))
    (hfresh : ∀ x ∈ n :: rest, x.nid ∉ ctx.stackIds)
    (hnr : ∀ x ∈ n :: rest, x.nid ≠ root.nid)
    (hfuel : rest.length + 2 ≤ fuel) :
    node_transform fuel ctx root n =
      some (Except.ok (((n :: rest).reverse).map (fun e => (e.transform, false)))) := by
  have hwalk := walkAux_chain ctx root rest n [n] fuel hchain hfresh hnr hfuel
  have hpath : node_path fuel ctx n root = some (Except.ok ((n :: rest) ++ [root])) := by
    rw [node_path, hwalk]
    by_cases hr : root.nid ∈ ctx.stackIds
    · have hl : lastIs ([n] ++ rest ++ [root]) root = true := by
        rw [lastIs, List.getLast?_concat]
        simp
      simp only [hr, if_true, hl]
      simp
    · simp [hr]
  rw [node_transform, hpath]
  simp [List.reverse_append, TransformCache.get, mkTransforms]

/-- Witness for C5: the chain `nN → nP → nR` on an empty traversal
state. -/
theorem c5_witness :
    isChainTo nR [nN, nP] ∧
      node_transform 4 cEmpty nR nN =
        some (Except.ok (([nN, nP].reverse).map (fun e => (e.transform, false)))) :=
  ⟨⟨rfl, rfl⟩, c5_single_chain_transform cEmpty nR nN [nP] 4 ⟨rfl, rfl⟩
    (fun x _ => Finset.not_mem_empty x.nid)
    (by
      intro x hx
      simp only [List.mem_cons] at hx
      rcases hx with rfl | hx
      · decide
      · rcases hx with rfl | hx
        · decide
        · simp at hx)
    (by decide)⟩
